import Mathlib

/-!
Verification development for the `Data_Cleaner` repository.

The Python core is shallowly embedded: pure string manipulation is modelled on
`List Char` (ASCII fragment of Python's Unicode-aware `str` operations),
machine floats appearing in resource arithmetic are modelled as exact
rationals, and the effectful functions (file conversion, lookup caching) are
modelled as pure functions over an explicit file-system/cache state.
-/

namespace DataCleaner

/-! ## Character-level model of the Python string primitives

Python's `re` module with the default string semantics treats `\w` as
letters, digits and underscore.  The embedding restricts to the ASCII
fragment: `[A-Za-z0-9_]` for word characters, the six ASCII whitespace
characters for `str.strip`, and ASCII case mapping for `str.lower`. -/

/-- `\w` (word character), ASCII fragment: letter, digit or underscore. -/
def wordChar (c : Char) : Bool :=
  decide (65 ≤ c.toNat ∧ c.toNat ≤ 90) || decide (97 ≤ c.toNat ∧ c.toNat ≤ 122) ||
  decide (48 ≤ c.toNat ∧ c.toNat ≤ 57) || decide (c.toNat = 95)

/-- Whitespace recognised by Python's `str.strip()`, ASCII fragment. -/
def spaceChar (c : Char) : Bool :=
  decide (c.toNat = 32) || decide (c.toNat = 9) || decide (c.toNat = 10) ||
  decide (c.toNat = 13) || decide (c.toNat = 11) || decide (c.toNat = 12)

/-- Python's `str.isdigit()` on a single character, ASCII fragment. -/
def digitChar (c : Char) : Bool :=
  decide (48 ≤ c.toNat ∧ c.toNat ≤ 57)

/-- Python's `str.lower()` on a single character, ASCII fragment. -/
def pyLowerChar (c : Char) : Char :=
  if 65 ≤ c.toNat ∧ c.toNat ≤ 90 then Char.ofNat (c.toNat + 32) else c

/-! ## Two-sided strip (`str.strip`, `str.strip('_')`) -/

/-- Remove from both ends all characters satisfying `p`
(Python `str.strip` with a character class). -/
def stripEnds (p : Char → Bool) (l : List Char) : List Char :=
  ((l.dropWhile p).reverse.dropWhile p).reverse

/-- Python `str.strip()` (whitespace at both ends). -/
def pyStrip (l : List Char) : List Char := stripEnds spaceChar l

/-! ## `re.sub(r'\W+', '_', s)` : collapse every maximal run of
non-word characters into a single underscore. -/

/-- Operational embedding of `re.sub(r'\W+', '_', s)`: a maximal run of
non-word characters is consumed in one step and replaced by `'_'`. -/
def collapseNonWord : List Char → List Char
  | [] => []
  | c :: cs =>
    if wordChar c then c :: collapseNonWord cs
    else '_' :: collapseNonWord (cs.dropWhile (fun d => !wordChar d))
termination_by l => l.length
decreasing_by
  all_goals simp only [List.length_cons]
  · omega
  · have := (List.dropWhile_sublist (l := cs) (fun d => !wordChar d)).length_le
    omega

/-- State-machine formulation of the same substitution: the flag records
whether the scanner is inside a non-word run. -/
def collapseAux : Bool → List Char → List Char
  | _, [] => []
  | inRun, c :: cs =>
    if wordChar c then c :: collapseAux false cs
    else if inRun then collapseAux true cs
    else '_' :: collapseAux true cs

/-! ## The two column-name normalizers

`lookup.normalize_column_name` (also `config.COLUMN_NAME_NORMALIZE_PATTERN`)
is `re.sub(r'\W+', '_', col.strip().lower())`.  `utils.normalize_column_name`
runs the same substitution and then post-processes the result. -/

namespace Lookup

/-- `lookup.normalize_column_name`: strip, lowercase, collapse non-word runs. -/
def normalize_column_name (col : String) : String :=
  String.mk (collapseNonWord ((pyStrip col.data).map pyLowerChar))

end Lookup

/-- `normalized.strip('_')` in `utils.normalize_column_name`. -/
def stripUnderscores (l : List Char) : List Char :=
  stripEnds (fun c => decide (c = '_')) l

/-- The digit-initial guard in `utils.normalize_column_name`:
`if normalized and normalized[0].isdigit(): normalized = f"col_..."`. -/
def prefixDigit : List Char → List Char
  | [] => []
  | c :: rest => if digitChar c then "col_".data ++ (c :: rest) else c :: rest

/-- The post-processing tail of `utils.normalize_column_name`: strip edge
underscores, guard a digit-initial name, map an empty result to
`unnamed_column`. -/
def postNormalize (t : String) : String :=
  if prefixDigit (stripUnderscores t.data) = [] then "unnamed_column"
  else String.mk (prefixDigit (stripUnderscores t.data))

namespace Utils

/-- `utils.normalize_column_name`: the shared substitution
`re.sub(r'\W+', '_', col.strip().lower())` followed by the post-processing
steps. -/
def normalize_column_name (col : String) : String :=
  if col = "" then ""
  else postNormalize (String.mk (collapseNonWord ((pyStrip col.data).map pyLowerChar)))

end Utils

/-- The Column Normalizer as the spec words it: strip leading/trailing
whitespace, lowercase, then replace every maximal run of one-or-more
non-word characters with a single underscore — here via the left-to-right
scanner that emits one underscore when a non-word run starts.  Also serves
as the structurally recursive twin used to evaluate the normalizer on
concrete inputs by kernel reduction. -/
def specNormalize (col : String) : String :=
  String.mk (collapseAux false ((pyStrip col.data).map pyLowerChar))

/-- Structurally recursive twin of `Utils.normalize_column_name`. -/
def utilsNormalizeRun (col : String) : String :=
  if col = "" then ""
  else postNormalize (String.mk (collapseAux false ((pyStrip col.data).map pyLowerChar)))

/-! ## Resource sizing (`utils.calculate_optimal_chunk_size`,
`perf_utils.check_system_resources`)

Python machine floats are modelled as exact rationals; `int()` is truncation
toward zero. -/

/-- Python `int()` applied to a (modelled) float: truncation toward zero. -/
def pyTrunc (x : ℚ) : ℤ := if 0 ≤ x then ⌊x⌋ else ⌈x⌉

/-- `utils.calculate_optimal_chunk_size(file_size_mb, available_memory_mb)`.
The float literal `0.2` is modelled as the exact rational `2 / 10`. -/
def calculate_optimal_chunk_size (file_size_mb available_memory_mb : ℚ) : ℤ :=
  if file_size_mb < 50 then 25000
  else if file_size_mb < 200 then 50000
  else if file_size_mb < 1000 then 100000
  else min (max (pyTrunc (available_memory_mb * (2 / 10) * 100)) 50000) 500000

/-- The resource assessment dictionary built by
`perf_utils.check_system_resources`.  The source field `memory_ratio` is
called `memory_pressure` here; `none` models `float('inf')` (used when
available memory is zero or negative). -/
structure ResourceAssessment where
  file_size_gb : ℚ
  available_memory_gb : ℚ
  recommended_chunk_size : ℤ
  use_streaming : Bool
  memory_pressure : Option ℚ
  deriving DecidableEq

/-- `perf_utils.check_system_resources`, success path: the two advisory
rules, the second of which can only tighten the first.  File size and
available memory (obtained in the source from `os.path.getsize` and
`psutil`) are inputs here. -/
def check_system_resources (file_size_gb available_memory_gb max_memory_gb : ℚ) :
    ResourceAssessment :=
  let rc1 : ℤ := if file_size_gb > max_memory_gb then 50000 else 100000
  let us1 : Bool := if file_size_gb > max_memory_gb then true else false
  let rc2 : ℤ := if available_memory_gb < file_size_gb * 2 then min rc1 25000 else rc1
  let us2 : Bool := if available_memory_gb < file_size_gb * 2 then true else us1
  ⟨file_size_gb, available_memory_gb, rc2, us2,
    if 0 < available_memory_gb then some (file_size_gb / available_memory_gb) else none⟩

/-- The `except` branch of `perf_utils.check_system_resources`: a degraded
default assessment returned when the system-metrics query fails. -/
def degradedAssessment : ResourceAssessment := ⟨0, 0, 100000, false, some 0⟩

/-! ## Lookup cache (`lookup.get_lookup_df`)

The module-level globals `_cached_lookup_df` and `_cached_lookup_path` are
passed as an explicit state; the file system is a parameter giving, per
path, whether `os.path.isfile` holds and what reading the file yields. -/

/-- Errors raised by `get_lookup_df`: `FileNotFoundError`, the
`ValueError` for an unsupported extension, and the `RuntimeError` wrapping
a failed read. -/
inductive LookupError
  | notFound
  | unsupportedType
  | loadFailure
  deriving DecidableEq

/-- File-system view used by `get_lookup_df`. -/
structure LookupFS (α : Type) where
  isfile : String → Bool
  read : String → Except Unit α

/-- The two module-level cache globals of `lookup.py`. -/
structure CacheState (α : Type) where
  cached_lookup_df : Option α
  cached_lookup_path : Option String

/-- Observable result of one `get_lookup_df` call: the returned frame, the
cache state after the call, and whether the file was read. -/
structure LookupResult (α : Type) where
  df : α
  state : CacheState α
  fileRead : Bool

/-- `config.SUPPORTED_LOOKUP_EXTENSIONS`. -/
def SUPPORTED_LOOKUP_EXTENSIONS : List String :=
  [".csv", ".parquet", ".json", ".jsonl", ".xls", ".xlsx"]

/-- `str.endswith` on character lists. -/
def endsWithChars (l suf : List Char) : Bool :=
  decide (l.reverse.take suf.length = suf.reverse)

/-- `lookup_path.lower().endswith(SUPPORTED_LOOKUP_EXTENSIONS)`. -/
def supportedLookupExt (path : String) : Bool :=
  SUPPORTED_LOOKUP_EXTENSIONS.any (fun e => endsWithChars (path.data.map pyLowerChar) e.data)

/-- The `with log_step` body of `get_lookup_df`: existence check, extension
check, read, and the conditional cache write. -/
def lookupLoad {α : Type} (fs : LookupFS α) (st : CacheState α) (path : String)
    (use_cache : Bool) : Except LookupError (LookupResult α) :=
  if fs.isfile path = false then .error .notFound
  else if supportedLookupExt path = false then .error .unsupportedType
  else
    match fs.read path with
    | .error _ => .error .loadFailure
    | .ok df =>
      if use_cache then .ok ⟨df, ⟨some df, some path⟩, true⟩
      else .ok ⟨df, st, true⟩

/-- `lookup.get_lookup_df`: serve from the single cache slot when caching is
enabled, the slot is populated, and the cached path equals the requested
path; otherwise load fresh. -/
def get_lookup_df {α : Type} (fs : LookupFS α) (st : CacheState α) (path : String)
    (use_cache : Bool) : Except LookupError (LookupResult α) :=
  match use_cache, st.cached_lookup_df, st.cached_lookup_path with
  | true, some df, some p =>
    if p = path then .ok ⟨df, st, false⟩
    else lookupLoad fs st path true
  | uc, _, _ => lookupLoad fs st path uc

/-- A file system for the C3 examples: every path exists and every read
yields the frame `8` (frames are modelled as bare numbers here). -/
def c3fs : LookupFS Nat := ⟨fun _ => true, fun _ => .ok 8⟩

/-- A populated cache slot holding frame `7` for path `a.csv`. -/
def c3st : CacheState Nat := ⟨some 7, some "a.csv"⟩

/-! ## Format converter (`converter.convert_to_csv_if_needed`)

Path strings are POSIX-style.  `os.path.splitext` is modelled with CPython's
rule that leading dots of the basename never start an extension.  `pandas`
readers are file-system parameters returning either a frame (its shape is
all the model tracks) or an error message; `df.empty` is true when either
axis has length zero.  Directory creation and the CSV write are
side-effect-free here: a successful conversion returns the output path and
the frame that was written. -/

/-- `'..' in file_path`. -/
def hasDotDot : List Char → Bool
  | '.' :: '.' :: _ => true
  | _ :: rest => hasDotDot rest
  | [] => false

/-- `os.path.basename` on characters: the part after the last `/`. -/
def basenameChars (l : List Char) : List Char :=
  (l.reverse.takeWhile (fun c => !(c = '/'))).reverse

/-- The extension (with dot) of a basename, per CPython `splitext`: starts
at the last dot, unless every character before that dot is itself a dot. -/
def extOfBasename (b : List Char) : List Char :=
  match b.reverse.dropWhile (fun c => !(c = '.')) with
  | [] => []
  | _ :: before =>
    if before.any (fun c => !(c = '.')) then
      '.' :: (b.reverse.takeWhile (fun c => !(c = '.'))).reverse
    else []

/-- `os.path.splitext(file_path)[1].lower()`. -/
def pySplitextExt (p : String) : String :=
  String.mk ((extOfBasename (basenameChars p.data)).map pyLowerChar)

/-- `os.path.splitext(os.path.basename(input_path))[0]`. -/
def stemOf (p : String) : String :=
  String.mk ((basenameChars p.data).take
    ((basenameChars p.data).length - (extOfBasename (basenameChars p.data)).length))

/-- `os.path.join` for a POSIX directory and a file name. -/
def pyJoin (d f : String) : String :=
  if d = "" then f
  else if endsWithChars d.data ['/'] then d ++ f
  else d ++ "/" ++ f

/-- The `ValueError`s the converter can raise. -/
inductive PyValueErr
  | unsupportedType (ext : String)
  | emptyData
  | badExtension (ext : String)
  deriving DecidableEq

/-- An exception caught by the converter's `except Exception` handler:
either a reader failure or one of the converter's own `ValueError`s. -/
inductive InnerExc
  | parseMsg (msg : String)
  | valueErr (v : PyValueErr)
  deriving DecidableEq

/-- Exceptions surfaced by `convert_to_csv_if_needed`: `FileNotFoundError`,
`PermissionError`, a `ValueError` raised outside the `try` block, or the
`RuntimeError` that wraps anything the generic handler caught. -/
inductive ConvError
  | fileNotFound
  | permissionError
  | valueError (v : PyValueErr)
  | runtimeError (wrapped : InnerExc)
  deriving DecidableEq

/-- A pandas frame, tracked by shape only. -/
structure PdFrame where
  nrows : Nat
  ncols : Nat
  deriving DecidableEq

/-- `df.empty`: true when either axis has length zero. -/
def pdEmpty (t : PdFrame) : Bool := t.nrows == 0 || t.ncols == 0

/-- File-system and reader view used by the converter.  `readCsvSep` is
`pd.read_csv(input_path, sep=·)` (`none` requests auto-detection); it also
serves the `.tsv` branch, which fixes the tab separator. -/
structure ConvFS where
  pathExists : String → Bool
  readable : String → Bool
  readExcel : String → Except String PdFrame
  readCsvSep : String → Option String → Except String PdFrame
  readJson : String → Except String PdFrame
  readNdjson : String → Except String PdFrame

/-- The allowed-extension list passed to `validate_file_path` by
`convert_to_csv_if_needed`. -/
def allowedExtensions : List String :=
  [".csv", ".xlsx", ".xls", ".txt", ".tsv", ".parquet", ".json", ".jsonl"]

/-- `converter.validate_file_path`: note that an empty path or a path
containing `..` makes it return `False` — it does not raise. -/
def validate_file_path (fs : ConvFS) (file_path : String) (allowed : List String) :
    Except ConvError Bool :=
  if file_path = "" ∨ hasDotDot file_path.data then .ok false
  else if fs.pathExists file_path = false then .error .fileNotFound
  else if fs.readable file_path = false then .error .permissionError
  else if allowed ≠ [] ∧ pySplitextExt file_path ∉ allowed then
    .error (.valueError (.badExtension (pySplitextExt file_path)))
  else .ok true

/-- The format dispatch inside the converter's `try` block, up to the loaded
frame: Excel, `.txt` with the auto-then-tab/semicolon/pipe fallback chain
(surfacing the original error when all fail), `.tsv`, JSON, JSONL, and the
unsupported-type `ValueError` otherwise. -/
def loadStep (fs : ConvFS) (input_path : String) (delimiter : Option String)
    (ext : String) : Except InnerExc PdFrame :=
  if ext = ".xls" ∨ ext = ".xlsx" then
    (fs.readExcel input_path).mapError .parseMsg
  else if ext = ".txt" then
    match fs.readCsvSep input_path
        (match delimiter with
          | some s => if s = "" then none else some s
          | none => none) with
    | .ok df => .ok df
    | .error e =>
      match fs.readCsvSep input_path (some "\t") with
      | .ok df => .ok df
      | .error _ =>
        match fs.readCsvSep input_path (some ";") with
        | .ok df => .ok df
        | .error _ =>
          match fs.readCsvSep input_path (some "|") with
          | .ok df => .ok df
          | .error _ => .error (.parseMsg e)
  else if ext = ".tsv" then
    (fs.readCsvSep input_path (some "\t")).mapError .parseMsg
  else if ext = ".json" then
    (fs.readJson input_path).mapError .parseMsg
  else if ext = ".jsonl" then
    (fs.readNdjson input_path).mapError .parseMsg
  else .error (.valueErr (.unsupportedType ext))

/-- `converter.convert_to_csv_if_needed`.  The Boolean result of
`validate_file_path` is discarded, as in the source.  Success returns the
path handed back to the caller together with the frame written to it
(`none` when the input was already canonical and no write happened). -/
def convert_to_csv_if_needed (fs : ConvFS) (input_path output_dir : String)
    (delimiter : Option String) : Except ConvError (String × Option PdFrame) :=
  match validate_file_path fs input_path allowedExtensions with
  | .error e => .error e
  | .ok _ =>
    if pySplitextExt input_path = ".csv" ∨ pySplitextExt input_path = ".parquet" then
      .ok (input_path, none)
    else
      match loadStep fs input_path delimiter (pySplitextExt input_path) with
      | .error inner => .error (.runtimeError inner)
      | .ok df =>
        if pdEmpty df then .error (.runtimeError (.valueErr .emptyData))
        else .ok (pyJoin output_dir (stemOf input_path ++ ".converted.csv"), some df)

/-! ## Claims C5, C6, C7 -/

/-- A file system on which no path exists. -/
def c6fs : ConvFS :=
  ⟨fun _ => false, fun _ => false, fun _ => .error "no", fun _ _ => .error "no",
   fun _ => .error "no", fun _ => .error "no"⟩

/-- A file system whose JSON reader yields a zero-row frame. -/
def c5fs : ConvFS :=
  ⟨fun _ => true, fun _ => true, fun _ => .error "x", fun _ _ => .error "x",
   fun _ => .ok ⟨0, 3⟩, fun _ => .error "x"⟩

/-- A file system whose CSV reader fails for every separator, with an error
message naming the separator that was tried (`auto` for auto-detection). -/
def c7fs : ConvFS :=
  ⟨fun _ => true, fun _ => true, fun _ => .error "x",
   fun _ sep => .error (match sep with | none => "auto" | some s => s),
   fun _ => .error "x", fun _ => .error "x"⟩

/-! ## Lookup join (`lookup.apply_lookup`, lines 104-134)

A frame is an ordered column-name list plus positional rows; a cell is
addressed by the first column of the given name.  The join is polars'
`how="left"`: for each left row, all right rows with an equal non-null key;
unmatched left rows get nulls for every right column.  The cache/load part
of `apply_lookup` is `get_lookup_df`, modelled above; `apply_lookup_join` is
the `with log_step("Normalize and join lookup")` body applied to the two
frames. -/

/-- A row: one optional value per column, positionally. -/
abbrev Row (V : Type) := List (Option V)

structure DataFrame (V : Type) where
  cols : List String
  rows : List (Row V)

/-- The value in row `r` under the first column named `c`. -/
def getCell {V : Type} : List String → Row V → String → Option V
  | [], _, _ => none
  | _ :: _, [], _ => none
  | c' :: cs, v :: vs, c => if c' = c then v else getCell cs vs c

/-- `df.rename({col: normalize_column_name(col) for col in df.columns})`. -/
def renameFrame {V : Type} (df : DataFrame V) : DataFrame V :=
  ⟨df.cols.map Lookup.normalize_column_name, df.rows⟩

/-- `lookup_df.select(selected_cols)`. -/
def selectFrame {V : Type} (df : DataFrame V) (sel : List String) : DataFrame V :=
  ⟨sel, df.rows.map (fun r => sel.map (fun c => getCell df.cols r c))⟩

/-- The rows a single left row contributes to the left join: one row per
matching right row (null keys never match), or a single null-extended row
when nothing matches. -/
def joinRow {V : Type} [DecidableEq V] (lookup_df : DataFrame V) (key : String)
    (mainCols : List String) (r : Row V) : List (Row V) :=
  if lookup_df.rows.filter (fun lr =>
      (getCell mainCols r key).isSome &&
      decide (getCell lookup_df.cols lr key = getCell mainCols r key)) = [] then
    [r ++ (lookup_df.cols.erase key).map (fun _ => (none : Option V))]
  else
    (lookup_df.rows.filter (fun lr =>
      (getCell mainCols r key).isSome &&
      decide (getCell lookup_df.cols lr key = getCell mainCols r key))).map
      (fun lr => r ++ (lookup_df.cols.erase key).map (fun c => getCell lookup_df.cols lr c))

/-- `main_df.join(lookup_df, on=key, how="left")`. -/
def leftJoin {V : Type} [DecidableEq V] (main_df lookup_df : DataFrame V)
    (key : String) : DataFrame V :=
  ⟨main_df.cols ++ lookup_df.cols.erase key,
    main_df.rows.flatMap (joinRow lookup_df key main_df.cols)⟩

/-- The `ValueError`s of `apply_lookup`. -/
inductive JoinError
  | missingJoinKeyMain (key : String)
  | missingJoinKeyLookup (key : String)
  | missingFields (missing : List String)
  deriving DecidableEq

/-- The normalize-validate-project-join body of `lookup.apply_lookup`. -/
def apply_lookup_join {V : Type} [DecidableEq V] (main_df lookup_df : DataFrame V)
    (lookup_key : String) (return_columns : List String) :
    Except JoinError (DataFrame V) :=
  if Lookup.normalize_column_name lookup_key ∉ (renameFrame main_df).cols then
    .error (.missingJoinKeyMain (Lookup.normalize_column_name lookup_key))
  else if Lookup.normalize_column_name lookup_key ∉ (renameFrame lookup_df).cols then
    .error (.missingJoinKeyLookup (Lookup.normalize_column_name lookup_key))
  else if (return_columns.map Lookup.normalize_column_name).filter
      (fun c => decide (c ∉ (renameFrame lookup_df).cols)) ≠ [] then
    .error (.missingFields ((return_columns.map Lookup.normalize_column_name).filter
      (fun c => decide (c ∉ (renameFrame lookup_df).cols))))
  else
    .ok (leftJoin (renameFrame main_df)
      (selectFrame (renameFrame lookup_df)
        (Lookup.normalize_column_name lookup_key ::
          return_columns.map Lookup.normalize_column_name))
      (Lookup.normalize_column_name lookup_key))

/-- The spec's join example: main ids 1, 2, 3. -/
def c4main : DataFrame String := ⟨["id"], [[some "1"], [some "2"], [some "3"]]⟩

/-- The spec's join example: two lookup rows for id 1. -/
def c4lookup : DataFrame String :=
  ⟨["id", "region"], [[some "1", some "A"], [some "1", some "B"]]⟩

/-! ## Theorems -/

theorem toNat_ofNat_valid (n : ℕ) (h : n.isValidChar) : (Char.ofNat n).toNat = n := by
  unfold Char.ofNat
  rw [dif_pos h]
  rfl

theorem toNat_pyLowerChar (c : Char) :
    (pyLowerChar c).toNat =
      if 65 ≤ c.toNat ∧ c.toNat ≤ 90 then c.toNat + 32 else c.toNat := by
  unfold pyLowerChar
  split
  · next h => exact toNat_ofNat_valid _ (Or.inl (by omega))
  · rfl

theorem pyLowerChar_not_upper (c : Char) :
    ¬ (65 ≤ (pyLowerChar c).toNat ∧ (pyLowerChar c).toNat ≤ 90) := by
  rw [toNat_pyLowerChar]
  split <;> omega

theorem pyLowerChar_of_not_upper (c : Char)
    (h : ¬ (65 ≤ c.toNat ∧ c.toNat ≤ 90)) : pyLowerChar c = c := by
  unfold pyLowerChar
  rw [if_neg h]

theorem wordChar_not_space {c : Char} (h : wordChar c = true) : spaceChar c = false := by
  unfold wordChar at h
  unfold spaceChar
  simp only [Bool.or_eq_true, decide_eq_true_eq] at h
  simp only [Bool.or_eq_false_iff, decide_eq_false_iff_not]
  omega

theorem wordChar_underscore : wordChar '_' = true := by decide

theorem dropWhile_head?_false {p : Char → Bool} {l : List Char} {a : Char}
    (h : (l.dropWhile p).head? = some a) : p a = false := by
  induction l with
  | nil => simp [List.dropWhile] at h
  | cons c cs ih =>
    rw [List.dropWhile] at h
    by_cases hc : p c
    · rw [hc] at h; exact ih h
    · simp only [Bool.not_eq_true] at hc
      rw [hc] at h
      simp only [List.head?] at h
      cases h
      simpa using hc

theorem getLast?_dropWhile {p : Char → Bool} {l : List Char}
    (h : l.dropWhile p ≠ []) : (l.dropWhile p).getLast? = l.getLast? := by
  induction l with
  | nil => simp [List.dropWhile] at h
  | cons c cs ih =>
    rw [List.dropWhile]
    by_cases hc : p c
    · rw [List.dropWhile] at h
      rw [hc] at h ⊢
      have hcs : cs ≠ [] := by
        intro hn
        exact h (by simp [hn, List.dropWhile])
      rw [ih h]
      cases cs with
      | nil => exact absurd rfl hcs
      | cons d ds => rw [List.getLast?_cons_cons]
    · simp only [Bool.not_eq_true] at hc
      rw [hc]

theorem stripEnds_head?_false {p : Char → Bool} {l : List Char} {a : Char}
    (h : (stripEnds p l).head? = some a) : p a = false := by
  unfold stripEnds at h
  rw [List.head?_reverse] at h
  have hne : (l.dropWhile p).reverse.dropWhile p ≠ [] := by
    intro hn
    rw [hn] at h
    simp at h
  rw [getLast?_dropWhile hne, List.getLast?_reverse] at h
  exact dropWhile_head?_false h

theorem stripEnds_getLast?_false {p : Char → Bool} {l : List Char} {a : Char}
    (h : (stripEnds p l).getLast? = some a) : p a = false := by
  unfold stripEnds at h
  rw [List.getLast?_reverse] at h
  exact dropWhile_head?_false h

theorem mem_dropWhile {p : Char → Bool} {l : List Char} {a : Char}
    (h : a ∈ l.dropWhile p) : a ∈ l :=
  (List.dropWhile_sublist p).mem h

theorem mem_stripEnds {p : Char → Bool} {l : List Char} {a : Char}
    (h : a ∈ stripEnds p l) : a ∈ l := by
  unfold stripEnds at h
  rw [List.mem_reverse] at h
  have := mem_dropWhile h
  rw [List.mem_reverse] at this
  exact mem_dropWhile this

theorem dropWhile_eq_self_of_all {p : Char → Bool} {l : List Char}
    (h : ∀ a ∈ l, p a = false) : l.dropWhile p = l := by
  cases l with
  | nil => rfl
  | cons c cs =>
    rw [List.dropWhile]
    rw [h c (List.mem_cons_self c cs)]

theorem stripEnds_eq_self_of_all {p : Char → Bool} {l : List Char}
    (h : ∀ a ∈ l, p a = false) : stripEnds p l = l := by
  unfold stripEnds
  rw [dropWhile_eq_self_of_all h]
  rw [dropWhile_eq_self_of_all (by intro a ha; exact h a (List.mem_reverse.mp ha))]
  exact List.reverse_reverse l

theorem collapseAux_true_eq (l : List Char) :
    collapseAux true l = collapseAux false (l.dropWhile (fun d => !wordChar d)) := by
  induction l with
  | nil => rfl
  | cons c cs ih =>
    rw [List.dropWhile]
    by_cases hc : wordChar c
    · simp [collapseAux, hc]
    · simp only [Bool.not_eq_true] at hc
      rw [hc]
      rw [collapseAux, hc]
      simpa using ih

theorem collapseNonWord_eq_aux (l : List Char) :
    collapseNonWord l = collapseAux false l := by
  have H : ∀ n (l : List Char), l.length ≤ n → collapseNonWord l = collapseAux false l := by
    intro n
    induction n with
    | zero =>
      intro l hl
      have : l = [] := List.length_eq_zero.mp (Nat.le_zero.mp hl)
      subst this
      simp [collapseNonWord, collapseAux]
    | succ n ih =>
      intro l hl
      cases l with
      | nil => simp [collapseNonWord, collapseAux]
      | cons c cs =>
        have hcs : cs.length ≤ n := by
          simp only [List.length_cons] at hl
          omega
        rw [collapseNonWord, collapseAux]
        by_cases hc : wordChar c
        · rw [if_pos hc, if_pos hc, ih cs hcs]
        · rw [if_neg hc, if_neg hc]
          rw [collapseAux_true_eq]
          have hlen : (cs.dropWhile (fun d => !wordChar d)).length ≤ n := by
            have := (List.dropWhile_sublist (l := cs) (fun d => !wordChar d)).length_le
            omega
          rw [ih _ hlen]
          simp
  exact H l.length l le_rfl

theorem mem_collapseNonWord {l : List Char} {a : Char}
    (h : a ∈ collapseNonWord l) : a = '_' ∨ a ∈ l := by
  have H : ∀ n (l : List Char), l.length ≤ n → ∀ a, a ∈ collapseNonWord l → a = '_' ∨ a ∈ l := by
    intro n
    induction n with
    | zero =>
      intro l hl a ha
      have : l = [] := List.length_eq_zero.mp (Nat.le_zero.mp hl)
      subst this
      simp [collapseNonWord] at ha
    | succ n ih =>
      intro l hl a ha
      cases l with
      | nil => simp [collapseNonWord] at ha
      | cons c cs =>
        have hcs : cs.length ≤ n := by
          simp only [List.length_cons] at hl
          omega
        rw [collapseNonWord] at ha
        by_cases hc : wordChar c
        · rw [if_pos hc] at ha
          rcases List.mem_cons.mp ha with h1 | h2
          · right; exact h1 ▸ List.mem_cons_self c cs
          · rcases ih cs hcs a h2 with h3 | h4
            · left; exact h3
            · right; exact List.mem_cons_of_mem c h4
        · rw [if_neg hc] at ha
          rcases List.mem_cons.mp ha with h1 | h2
          · left; exact h1
          · have hlen : (cs.dropWhile (fun d => !wordChar d)).length ≤ n := by
              have := (List.dropWhile_sublist (l := cs) (fun d => !wordChar d)).length_le
              omega
            rcases ih _ hlen a h2 with h3 | h4
            · left; exact h3
            · right; exact List.mem_cons_of_mem c (mem_dropWhile h4)
  exact H l.length l le_rfl a h

theorem wordChar_of_mem_collapseNonWord {l : List Char} {a : Char}
    (h : a ∈ collapseNonWord l) : wordChar a = true ∨ a ∈ l := by
  rcases mem_collapseNonWord h with h1 | h2
  · left; exact h1 ▸ wordChar_underscore
  · right; exact h2

theorem collapseNonWord_eq_self_of_all {l : List Char}
    (h : ∀ a ∈ l, wordChar a = true) : collapseNonWord l = l := by
  induction l with
  | nil => simp [collapseNonWord]
  | cons c cs ih =>
    rw [collapseNonWord, if_pos (h c (List.mem_cons_self c cs))]
    rw [ih (fun a ha => h a (List.mem_cons_of_mem c ha))]

theorem wordChar_mem_collapseNonWord {l : List Char} {a : Char}
    (h : a ∈ collapseNonWord l) : wordChar a = true := by
  have H : ∀ n (l : List Char), l.length ≤ n → ∀ a, a ∈ collapseNonWord l →
      wordChar a = true := by
    intro n
    induction n with
    | zero =>
      intro l hl a ha
      have : l = [] := List.length_eq_zero.mp (Nat.le_zero.mp hl)
      subst this
      simp [collapseNonWord] at ha
    | succ n ih =>
      intro l hl a ha
      cases l with
      | nil => simp [collapseNonWord] at ha
      | cons c cs =>
        have hcs : cs.length ≤ n := by
          simp only [List.length_cons] at hl
          omega
        rw [collapseNonWord] at ha
        by_cases hc : wordChar c
        · rw [if_pos hc] at ha
          rcases List.mem_cons.mp ha with h1 | h2
          · exact h1 ▸ hc
          · exact ih cs hcs a h2
        · rw [if_neg hc] at ha
          rcases List.mem_cons.mp ha with h1 | h2
          · exact h1 ▸ wordChar_underscore
          · have hlen : (cs.dropWhile (fun d => !wordChar d)).length ≤ n := by
              have := (List.dropWhile_sublist (l := cs) (fun d => !wordChar d)).length_le
              omega
            exact ih _ hlen a h2
  exact H l.length l le_rfl a h

theorem dropWhile_eq_self_of_head {p : Char → Bool} {l : List Char}
    (h : ∀ a, l.head? = some a → p a = false) : l.dropWhile p = l := by
  cases l with
  | nil => rfl
  | cons c cs => rw [List.dropWhile, h c rfl]

theorem stripEnds_eq_self_of_edges {p : Char → Bool} {l : List Char}
    (h1 : ∀ a, l.head? = some a → p a = false)
    (h2 : ∀ a, l.getLast? = some a → p a = false) : stripEnds p l = l := by
  unfold stripEnds
  rw [dropWhile_eq_self_of_head h1]
  rw [dropWhile_eq_self_of_head (fun a ha => h2 a (by rwa [List.head?_reverse] at ha))]
  exact List.reverse_reverse l

theorem string_mk_data (s : String) : String.mk s.data = s := rfl

theorem lookup_normalize_eval (s : String) :
    Lookup.normalize_column_name s = specNormalize s := by
  unfold Lookup.normalize_column_name specNormalize
  rw [collapseNonWord_eq_aux]

theorem utils_normalize_eval (s : String) :
    Utils.normalize_column_name s = utilsNormalizeRun s := by
  unfold Utils.normalize_column_name utilsNormalizeRun
  rw [collapseNonWord_eq_aux]

/-! ## Properties of the shared substitution pipeline -/

theorem mem_pipeline {l : List Char} {a : Char}
    (h : a ∈ collapseNonWord ((pyStrip l).map pyLowerChar)) :
    wordChar a = true ∧ ¬(65 ≤ a.toNat ∧ a.toNat ≤ 90) := by
  refine ⟨wordChar_mem_collapseNonWord h, ?_⟩
  rcases mem_collapseNonWord h with h1 | h2
  · subst h1
    decide
  · rcases List.mem_map.mp h2 with ⟨b, _, hb⟩
    exact hb ▸ pyLowerChar_not_upper b

theorem pipeline_id {l : List Char}
    (hw : ∀ a ∈ l, wordChar a = true)
    (hu : ∀ a ∈ l, ¬(65 ≤ a.toNat ∧ a.toNat ≤ 90)) :
    collapseNonWord ((pyStrip l).map pyLowerChar) = l := by
  unfold pyStrip
  rw [stripEnds_eq_self_of_all (fun a ha => wordChar_not_space (hw a ha))]
  have hmap : l.map pyLowerChar = l := by
    have := List.map_congr_left (l := l) (f := pyLowerChar) (g := id)
      (fun a ha => pyLowerChar_of_not_upper a (hu a ha))
    simpa using this
  rw [hmap]
  exact collapseNonWord_eq_self_of_all hw

theorem string_mk_cons_ne_empty (a : Char) (l : List Char) : String.mk (a :: l) ≠ "" := by
  intro h
  have := congrArg String.data h
  simp at this

/-- Control-flow reshaping of the post-processing tail, by cases on the
underscore-stripped name. -/
theorem postNormalize_shape (t : String) :
    postNormalize t =
      match stripUnderscores t.data with
      | [] => "unnamed_column"
      | c :: rest =>
        if digitChar c then String.mk ("col_".data ++ c :: rest)
        else String.mk (c :: rest) := by
  unfold postNormalize
  generalize stripUnderscores t.data = str
  cases str with
  | nil => rfl
  | cons c rest =>
    rw [prefixDigit]
    change _ = if digitChar c then String.mk ("col_".data ++ c :: rest) else String.mk (c :: rest)
    by_cases hd : digitChar c
    · rw [if_pos hd, if_pos hd]
      rw [if_neg (by simp [List.append_eq_nil])]
    · rw [if_neg hd, if_neg hd]
      rw [if_neg (by simp)]

/-- Any nonempty string whose ends are not underscores and whose head is not
a digit is a fixed point of the post-processing tail. -/
theorem postNormalize_fixed {m : String}
    (hne : m ≠ "")
    (hh : ∀ a, m.data.head? = some a → a ≠ '_' ∧ digitChar a = false)
    (hl : ∀ a, m.data.getLast? = some a → a ≠ '_') :
    postNormalize m = m := by
  rw [postNormalize_shape]
  have h2 : stripUnderscores m.data = m.data :=
    stripEnds_eq_self_of_edges
      (fun a ha => by simpa using (hh a ha).1)
      (fun a ha => by simpa using hl a ha)
  rw [h2]
  cases hm : m.data with
  | nil =>
    exfalso
    apply hne
    rw [← string_mk_data m, hm]
  | cons c rest =>
    have hdig : ¬(digitChar c = true) := by
      rw [(hh c (by rw [hm]; rfl)).2]
      exact Bool.false_ne_true
    change (if digitChar c then String.mk ("col_".data ++ c :: rest)
      else String.mk (c :: rest)) = m
    rw [if_neg hdig, ← hm]

/-- Any string whose characters are lowercase-stable word characters, whose
ends are not underscores, and whose head is not a digit, is a fixed point of
`utils.normalize_column_name`. -/
theorem utils_normalize_fixed {m : String}
    (hne : m ≠ "")
    (hw : ∀ a ∈ m.data, wordChar a = true)
    (hu : ∀ a ∈ m.data, ¬(65 ≤ a.toNat ∧ a.toNat ≤ 90))
    (hh : ∀ a, m.data.head? = some a → a ≠ '_' ∧ digitChar a = false)
    (hl : ∀ a, m.data.getLast? = some a → a ≠ '_') :
    Utils.normalize_column_name m = m := by
  unfold Utils.normalize_column_name
  rw [if_neg hne]
  rw [pipeline_id hw hu, string_mk_data]
  exact postNormalize_fixed hne hh hl

theorem lookup_normalize_idem (s : String) :
    Lookup.normalize_column_name (Lookup.normalize_column_name s) =
      Lookup.normalize_column_name s := by
  nth_rewrite 1 [Lookup.normalize_column_name]
  rw [pipeline_id (l := (Lookup.normalize_column_name s).data)
    (fun a ha => (mem_pipeline ha).1) (fun a ha => (mem_pipeline ha).2)]

theorem string_data_mk (l : List Char) : (String.mk l).data = l := rfl

theorem utils_normalize_idem (s : String) :
    Utils.normalize_column_name (Utils.normalize_column_name s) =
      Utils.normalize_column_name s := by
  by_cases hs : s = ""
  · subst hs
    decide
  · have hU : Utils.normalize_column_name s =
        postNormalize (String.mk (collapseNonWord ((pyStrip s.data).map pyLowerChar))) := by
      unfold Utils.normalize_column_name
      rw [if_neg hs]
    rw [hU, postNormalize_shape]
    simp only [string_data_mk]
    rcases hstr : stripUnderscores (collapseNonWord ((pyStrip s.data).map pyLowerChar))
      with _ | ⟨c, rest⟩
    · exact utils_normalize_fixed (by decide) (by decide) (by decide)
        (by decide) (by decide)
    · have hmemstr : ∀ a ∈ c :: rest,
          wordChar a = true ∧ ¬(65 ≤ a.toNat ∧ a.toNat ≤ 90) := by
        intro a ha
        exact mem_pipeline (mem_stripEnds (hstr ▸ ha))
      have hheadstr : ¬(c = '_') := by
        have := stripEnds_head?_false (l := collapseNonWord ((pyStrip s.data).map pyLowerChar))
          (p := fun c => decide (c = '_')) (a := c) (by rw [← stripUnderscores, hstr]; rfl)
        simpa using this
      have hlaststr : ∀ a, (c :: rest).getLast? = some a → ¬(a = '_') := by
        intro a ha
        have := stripEnds_getLast?_false (l := collapseNonWord ((pyStrip s.data).map pyLowerChar))
          (p := fun c => decide (c = '_')) (a := a) (by rw [← stripUnderscores, hstr]; exact ha)
        simpa using this
      have hcol : ∀ a ∈ ("col_".data : List Char),
          wordChar a = true ∧ ¬(65 ≤ a.toNat ∧ a.toNat ≤ 90) := by decide
      change Utils.normalize_column_name
          (if digitChar c then String.mk ("col_".data ++ c :: rest) else String.mk (c :: rest)) =
        if digitChar c then String.mk ("col_".data ++ c :: rest) else String.mk (c :: rest)
      by_cases hd : digitChar c
      · rw [if_pos hd]
        apply utils_normalize_fixed (string_mk_cons_ne_empty _ _)
        · intro a ha
          have ha2 : a ∈ ("col_".data : List Char) ++ c :: rest := ha
          rcases List.mem_append.mp ha2 with h1 | h2
          · exact (hcol a h1).1
          · exact (hmemstr a h2).1
        · intro a ha
          have ha2 : a ∈ ("col_".data : List Char) ++ c :: rest := ha
          rcases List.mem_append.mp ha2 with h1 | h2
          · exact (hcol a h1).2
          · exact (hmemstr a h2).2
        · intro a ha
          have hac : a = 'c' := by
            have h2 : (('c' : Char) :: ('o' :: 'l' :: '_' :: (c :: rest))).head? = some a := ha
            simpa using h2.symm
          subst hac
          exact ⟨by decide, by decide⟩
        · intro a ha
          have ha2 : (("col_".data : List Char) ++ c :: rest).getLast? = some a := ha
          rw [List.getLast?_append] at ha2
          cases hy : (c :: rest).getLast? with
          | none => rw [List.getLast?_eq_none_iff] at hy; cases hy
          | some y =>
            rw [hy] at ha2
            have hya : y = a := by
              have h3 : (some y).or ("col_".data : List Char).getLast? = some y := rfl
              rw [h3] at ha2
              exact Option.some.inj ha2
            exact hya ▸ hlaststr y hy
      · rw [if_neg hd]
        apply utils_normalize_fixed (string_mk_cons_ne_empty _ _)
        · intro a ha
          exact (hmemstr a ha).1
        · intro a ha
          exact (hmemstr a ha).2
        · intro a ha
          have hac : a = c := by simpa using ha.symm
          subst hac
          refine ⟨by simpa using hheadstr, ?_⟩
          simpa using hd
        · intro a ha
          exact fun h => hlaststr a ha (by simpa using h)

/-! ## Claims C2, C9, C10 -/

/-- Claim C2: for every input string, the Column Normalizer
(`lookup.normalize_column_name`) equals stripping whitespace, lowercasing,
then replacing every maximal run of non-word characters with a single
underscore; in particular it maps `User-Type!!` to `user_type_` (trailing
underscore preserved) and the empty string to itself. -/
theorem C2_normalizer_collapse :
    (∀ s : String, Lookup.normalize_column_name s = specNormalize s) ∧
    Lookup.normalize_column_name ("User-Type!!") = "user_type_" ∧
    Lookup.normalize_column_name ("") = "" := by
  refine ⟨fun s => lookup_normalize_eval s, ?_, ?_⟩
  · rw [lookup_normalize_eval]
    decide
  · rw [lookup_normalize_eval]
    decide

/-- Claim C9: both column-name normalization implementations
(`lookup.normalize_column_name` and `utils.normalize_column_name`) are
idempotent. -/
theorem C9_normalize_idempotent :
    ∀ s : String,
      Lookup.normalize_column_name (Lookup.normalize_column_name s) =
        Lookup.normalize_column_name s ∧
      Utils.normalize_column_name (Utils.normalize_column_name s) =
        Utils.normalize_column_name s :=
  fun s => ⟨lookup_normalize_idem s, utils_normalize_idem s⟩

/-- Claim C10 counterexample: the two normalization implementations disagree
on `User-Type!!` — `lookup` keeps the trailing underscore, `utils` strips
it. -/
theorem C10_counterexample :
    Lookup.normalize_column_name ("User-Type!!") = "user_type_" ∧
    Utils.normalize_column_name ("User-Type!!") = "user_type" ∧
    Lookup.normalize_column_name ("User-Type!!") ≠
      Utils.normalize_column_name ("User-Type!!") := by
  refine ⟨?_, ?_, ?_⟩
  · rw [lookup_normalize_eval]
    decide
  · rw [utils_normalize_eval]
    decide
  · rw [lookup_normalize_eval, utils_normalize_eval]
    decide

/-- Claim C10 (amended): `utils.normalize_column_name` equals
`lookup.normalize_column_name` followed by the post-processing tail
(underscore strip, digit guard, empty fallback) on nonempty inputs, and the
two implementations agree whenever the lookup-normalized form is nonempty,
neither starts nor ends with an underscore, and does not start with a
digit. -/
theorem C10_normalizers_relation (s : String) :
    (s ≠ "" → Utils.normalize_column_name s =
      postNormalize (Lookup.normalize_column_name s)) ∧
    ((Lookup.normalize_column_name s).data ≠ [] →
      (∀ a, (Lookup.normalize_column_name s).data.head? = some a →
        a ≠ '_' ∧ digitChar a = false) →
      (∀ a, (Lookup.normalize_column_name s).data.getLast? = some a → a ≠ '_') →
      Utils.normalize_column_name s = Lookup.normalize_column_name s) := by
  have hpost : s ≠ "" → Utils.normalize_column_name s =
      postNormalize (Lookup.normalize_column_name s) := by
    intro hs
    unfold Utils.normalize_column_name
    rw [if_neg hs]
    rfl
  refine ⟨hpost, ?_⟩
  intro hne hh hl
  have hs : s ≠ "" := by
    intro h
    subst h
    apply hne
    rw [lookup_normalize_eval]
    rfl
  rw [hpost hs]
  exact postNormalize_fixed (fun h => hne (congrArg String.data h)) hh hl

/-- Witness for C10 (amended), at the input `Email`. -/
theorem C10_normalizers_relation_witness :
    Utils.normalize_column_name ("Email") = Lookup.normalize_column_name ("Email") := by
  apply (C10_normalizers_relation ("Email")).2
  · rw [lookup_normalize_eval]
    decide
  · rw [lookup_normalize_eval]
    intro a ha
    obtain rfl : 'e' = a := Option.some.inj ha
    decide
  · rw [lookup_normalize_eval]
    intro a ha
    obtain rfl : 'l' = a := Option.some.inj ha
    decide

/-- Claim C1 counterexample: at a 49 MB file the code returns 25,000 rows,
not the 50,000 rows of the claimed four-tier table. -/
theorem C1_counterexample :
    calculate_optimal_chunk_size 49 8000 = 25000 ∧ (25000 : ℤ) ≠ 50000 := by
  constructor
  · unfold calculate_optimal_chunk_size
    norm_num
  · decide

/-- Claim C1 (amended): the actual tier table of
`utils.calculate_optimal_chunk_size` — 25,000 rows below 50 MB, 50,000 rows
below 200 MB, 100,000 rows below 1000 MB, and
`clamp(int(availableMemoryMB * 0.2 * 100), 50_000, 500_000)` from
1000 MB up. -/
theorem C1_chunk_size_tiers (f a : ℚ) :
    (f < 50 → calculate_optimal_chunk_size f a = 25000) ∧
    (50 ≤ f → f < 200 → calculate_optimal_chunk_size f a = 50000) ∧
    (200 ≤ f → f < 1000 → calculate_optimal_chunk_size f a = 100000) ∧
    (1000 ≤ f →
      calculate_optimal_chunk_size f a =
        min (max (pyTrunc (a * (2 / 10) * 100)) 50000) 500000) := by
  unfold calculate_optimal_chunk_size
  refine ⟨?_, ?_, ?_, ?_⟩ <;> intros <;> split_ifs <;> first | rfl | linarith

/-- Witness for C1 (amended): a 10 MB file gets 25,000-row chunks. -/
theorem C1_chunk_size_tiers_witness :
    calculate_optimal_chunk_size 10 4000 = 25000 :=
  (C1_chunk_size_tiers 10 4000).1 (by norm_num)

/-- Claim C8: whenever available memory is below twice the file size, the
assessment forces streaming and caps the recommended chunk size at 25,000
rows, regardless of the large-file rule. -/
theorem C8_memory_pressure_override (f a m : ℚ) (h : a < f * 2) :
    (check_system_resources f a m).use_streaming = true ∧
    (check_system_resources f a m).recommended_chunk_size ≤ 25000 := by
  unfold check_system_resources
  simp only [if_pos h]
  exact ⟨trivial, min_le_right _ _⟩

/-- Witness for C8: a 10 GB file with 5 GB of available memory. -/
theorem C8_memory_pressure_override_witness :
    (check_system_resources 10 5 8).use_streaming = true ∧
    (check_system_resources 10 5 8).recommended_chunk_size ≤ 25000 :=
  C8_memory_pressure_override 10 5 8 (by norm_num)

theorem get_lookup_df_nocache {α : Type} (fs : LookupFS α) (st : CacheState α)
    (path : String) :
    get_lookup_df fs st path false = lookupLoad fs st path false := by
  unfold get_lookup_df
  rcases st with ⟨odf, op⟩
  rcases odf with _ | df <;> rcases op with _ | p <;> simp

theorem get_lookup_df_miss {α : Type} (fs : LookupFS α) (st : CacheState α) (path : String)
    (h : st.cached_lookup_df = none ∨ st.cached_lookup_path ≠ some path) :
    get_lookup_df fs st path true = lookupLoad fs st path true := by
  unfold get_lookup_df
  rcases st with ⟨odf, op⟩
  rcases odf with _ | df
  · simp
  · rcases op with _ | p
    · simp
    · have hpp : ¬(p = path) := by
        rcases h with h1 | h2
        · cases h1
        · intro he
          exact h2 (by rw [he])
      simp [hpp]

theorem lookupLoad_fileRead {α : Type} (fs : LookupFS α) (st : CacheState α)
    (path : String) (uc : Bool) (r : LookupResult α)
    (h : lookupLoad fs st path uc = .ok r) : r.fileRead = true := by
  unfold lookupLoad at h
  split_ifs at h
  all_goals
    cases hread : fs.read path with
    | error e =>
      rw [hread] at h
      cases h
    | ok df =>
      rw [hread] at h
      cases h
      rfl

/-- Claim C3 (amended): the cache-slot state machine of `get_lookup_df`.
A call returns without reading the file exactly when caching is enabled and
the populated slot's path equals the requested path; a fresh load with
caching enabled overwrites the slot; a call with caching disabled reads the
file and leaves the slot untouched (it does not invalidate the entry). -/
theorem C3_cache_state_machine {α : Type} (fs : LookupFS α) (st : CacheState α)
    (path : String) (use_cache : Bool) :
    (∀ df, use_cache = true → st.cached_lookup_df = some df →
      st.cached_lookup_path = some path →
      get_lookup_df fs st path use_cache = .ok ⟨df, st, false⟩) ∧
    (∀ r, get_lookup_df fs st path use_cache = .ok r → r.fileRead = false →
      use_cache = true ∧ st.cached_lookup_path = some path ∧
      st.cached_lookup_df = some r.df ∧ r.state = st) ∧
    (∀ t, use_cache = true →
      (st.cached_lookup_df = none ∨ st.cached_lookup_path ≠ some path) →
      fs.isfile path = true → supportedLookupExt path = true →
      fs.read path = .ok t →
      get_lookup_df fs st path use_cache = .ok ⟨t, ⟨some t, some path⟩, true⟩) ∧
    (∀ t, use_cache = false →
      fs.isfile path = true → supportedLookupExt path = true →
      fs.read path = .ok t →
      get_lookup_df fs st path use_cache = .ok ⟨t, st, true⟩) := by
  have hloadok : ∀ uc t, fs.isfile path = true → supportedLookupExt path = true →
      fs.read path = .ok t →
      lookupLoad fs st path uc =
        (if uc then .ok ⟨t, ⟨some t, some path⟩, true⟩ else .ok ⟨t, st, true⟩) := by
    intro uc t hfile hext hread
    unfold lookupLoad
    rw [if_neg (by rw [hfile]; simp), if_neg (by rw [hext]; simp), hread]
  refine ⟨?_, ?_, ?_, ?_⟩
  · intro df huc hdf hpath
    unfold get_lookup_df
    rw [huc, hdf, hpath]
    simp
  · intro r hr hread
    unfold get_lookup_df at hr
    cases huc : use_cache with
    | false =>
      rw [huc] at hr
      have := lookupLoad_fileRead fs st path false r hr
      rw [this] at hread
      cases hread
    | true =>
      rw [huc] at hr
      cases hdf : st.cached_lookup_df with
      | none =>
        rw [hdf] at hr
        have := lookupLoad_fileRead fs st path true r hr
        rw [this] at hread
        cases hread
      | some df =>
        rw [hdf] at hr
        cases hp : st.cached_lookup_path with
        | none =>
          rw [hp] at hr
          have := lookupLoad_fileRead fs st path true r hr
          rw [this] at hread
          cases hread
        | some p =>
          rw [hp] at hr
          by_cases hpp : p = path
          · simp only [if_pos hpp] at hr
            cases hr
            refine ⟨rfl, ?_, ?_, rfl⟩
            · simp [hp, hpp]
            · simp [hdf]
          · simp only [if_neg hpp] at hr
            have := lookupLoad_fileRead fs st path true r hr
            rw [this] at hread
            cases hread
  · intro t huc hmiss hfile hext hread
    rw [huc, get_lookup_df_miss fs st path hmiss,
      hloadok true t hfile hext hread]
    simp
  · intro t huc hfile hext hread
    rw [huc, get_lookup_df_nocache fs st path,
      hloadok false t hfile hext hread]
    simp

/-- Claim C3 counterexample: a call with caching disabled does not
invalidate the cached entry — the slot still holds `(a.csv, 7)` afterwards,
and a subsequent cached call for the same path is served from the slot
without reading the file. -/
theorem C3_counterexample :
    get_lookup_df c3fs c3st "a.csv" false = .ok ⟨8, c3st, true⟩ ∧
    get_lookup_df c3fs c3st "a.csv" true = .ok ⟨7, c3st, false⟩ := by
  constructor
  · rfl
  · rfl

/-- Witness for C3 (amended): a caching-disabled call for a different path
reads the file and leaves the slot untouched. -/
theorem C3_cache_state_machine_witness :
    get_lookup_df c3fs c3st "b.csv" false = .ok ⟨8, c3st, true⟩ :=
  (C3_cache_state_machine c3fs c3st "b.csv" false).2.2.2 8 rfl rfl (by decide) rfl

/-- Claim C6 evidence: a nonexistent path containing `..` with a `.csv`
extension is returned unchanged as a success (the `False` from
`validate_file_path` is discarded), and a nonexistent empty path surfaces a
wrapped unsupported-type error — both instead of the claimed NotFound;
a clean nonexistent path does surface NotFound. -/
theorem C6_nonexistent_path_validation :
    convert_to_csv_if_needed c6fs ("../data.csv") ("./converted") none =
      .ok ("../data.csv", none) ∧
    convert_to_csv_if_needed c6fs ("") ("./converted") none =
      .error (.runtimeError (.valueErr (.unsupportedType ""))) ∧
    convert_to_csv_if_needed c6fs ("data.csv") ("./converted") none =
      .error .fileNotFound := by
  refine ⟨?_, ?_, ?_⟩ <;> rfl

/-- Claim C5 (amended): when a non-canonical input parses to a table with
zero rows or zero columns, the converter's empty-data `ValueError` is caught
by the generic handler and surfaces wrapped inside the ConversionFailure
(`RuntimeError`), not as a distinct error kind. -/
theorem C5_empty_data_wrapped (fs : ConvFS) (p outDir : String) (delim : Option String)
    (df : PdFrame)
    (hval : validate_file_path fs p allowedExtensions = .ok true)
    (hext : ¬(pySplitextExt p = ".csv" ∨ pySplitextExt p = ".parquet"))
    (hload : loadStep fs p delim (pySplitextExt p) = .ok df)
    (hempty : pdEmpty df = true) :
    convert_to_csv_if_needed fs p outDir delim =
      .error (.runtimeError (.valueErr .emptyData)) := by
  simp only [convert_to_csv_if_needed, hval, hload, hempty, hext, if_false, if_true,
    ite_true, ite_false]

/-- Claim C5 counterexample: on an empty `.json` input the surfaced error is
the ConversionFailure wrap of the empty-data condition, not the distinct
EmptyData error the claim requires. -/
theorem C5_counterexample :
    convert_to_csv_if_needed c5fs ("d.json") ("out") none =
      .error (.runtimeError (.valueErr .emptyData)) ∧
    convert_to_csv_if_needed c5fs ("d.json") ("out") none ≠
      .error (.valueError .emptyData) := by
  refine ⟨rfl, ?_⟩
  intro h
  cases h

/-- Witness for C5 (amended), at the empty `.json` input. -/
theorem C5_empty_data_wrapped_witness :
    convert_to_csv_if_needed c5fs ("d.json") ("out") none =
      .error (.runtimeError (.valueErr .emptyData)) :=
  C5_empty_data_wrapped c5fs "d.json" "out" none ⟨0, 3⟩ rfl (by decide) rfl rfl

theorem loadStep_txt (fs : ConvFS) (p : String) :
    loadStep fs p none (".txt") =
      match fs.readCsvSep p none with
      | .ok df => .ok df
      | .error e =>
        match fs.readCsvSep p (some "\t") with
        | .ok df => .ok df
        | .error _ =>
          match fs.readCsvSep p (some ";") with
          | .ok df => .ok df
          | .error _ =>
            match fs.readCsvSep p (some "|") with
            | .ok df => .ok df
            | .error _ => .error (.parseMsg e) := by
  unfold loadStep
  rw [if_neg (by decide), if_pos rfl]

/-- Claim C7: for a `.txt` input with no explicit delimiter, the converter
attempts auto-detection first; on failure it retries tab, then semicolon,
then pipe, writing the first successful parse; and when all three fallbacks
also fail, the surfaced error wraps the original auto-detection error, not
the last fallback's. -/
theorem C7_txt_delimiter_fallback (fs : ConvFS) (p outDir : String) (e : String)
    (hval : validate_file_path fs p allowedExtensions = .ok true)
    (hext : pySplitextExt p = ".txt")
    (hauto : fs.readCsvSep p none = .error e) :
    (∀ df, fs.readCsvSep p (some "\t") = .ok df → pdEmpty df = false →
      convert_to_csv_if_needed fs p outDir none =
        .ok (pyJoin outDir (stemOf p ++ ".converted.csv"), some df)) ∧
    (∀ e1 df, fs.readCsvSep p (some "\t") = .error e1 →
      fs.readCsvSep p (some ";") = .ok df → pdEmpty df = false →
      convert_to_csv_if_needed fs p outDir none =
        .ok (pyJoin outDir (stemOf p ++ ".converted.csv"), some df)) ∧
    (∀ e1 e2 df, fs.readCsvSep p (some "\t") = .error e1 →
      fs.readCsvSep p (some ";") = .error e2 →
      fs.readCsvSep p (some "|") = .ok df → pdEmpty df = false →
      convert_to_csv_if_needed fs p outDir none =
        .ok (pyJoin outDir (stemOf p ++ ".converted.csv"), some df)) ∧
    (∀ e1 e2 e3, fs.readCsvSep p (some "\t") = .error e1 →
      fs.readCsvSep p (some ";") = .error e2 →
      fs.readCsvSep p (some "|") = .error e3 →
      convert_to_csv_if_needed fs p outDir none =
        .error (.runtimeError (.parseMsg e))) := by
  refine ⟨?_, ?_, ?_, ?_⟩
  · intro df htab hempty
    simp only [convert_to_csv_if_needed, hval, hext, loadStep_txt, hauto, htab,
      hempty, if_false, ite_false]
    simp
  · intro e1 df htab hsemi hempty
    simp only [convert_to_csv_if_needed, hval, hext, loadStep_txt, hauto, htab,
      hsemi, hempty, if_false, ite_false]
    simp
  · intro e1 e2 df htab hsemi hpipe hempty
    simp only [convert_to_csv_if_needed, hval, hext, loadStep_txt, hauto, htab,
      hsemi, hpipe, hempty, if_false, ite_false]
    simp
  · intro e1 e2 e3 htab hsemi hpipe
    simp only [convert_to_csv_if_needed, hval, hext, loadStep_txt, hauto, htab,
      hsemi, hpipe, if_false, ite_false]
    simp

/-- Witness for C7: when auto-detection and all three fallbacks fail, the
surfaced error wraps the auto-detection message. -/
theorem C7_txt_delimiter_fallback_witness :
    convert_to_csv_if_needed c7fs ("notes.txt") ("out") none =
      .error (.runtimeError (.parseMsg "auto")) :=
  (C7_txt_delimiter_fallback c7fs "notes.txt" "out" "auto" rfl rfl rfl).2.2.2
    "\t" ";" "|" rfl rfl rfl

theorem getCell_map_self {V : Type} (sel : List String) (f : String → Option V)
    (c : String) (hc : c ∈ sel) : getCell sel (sel.map f) c = f c := by
  induction sel with
  | nil => cases hc
  | cons c' cs ih =>
    rw [List.map_cons]
    show (if c' = c then f c' else getCell cs (cs.map f) c) = f c
    by_cases h : c' = c
    · rw [if_pos h, h]
    · rw [if_neg h]
      rcases List.mem_cons.mp hc with h1 | h2
      · exact absurd h1.symm h
      · exact ih h2

/-- Projection transparency: the rows one left row contributes against the
projected lookup frame are the rows computed directly against the original
lookup frame, with matching decided on the original key column and values
drawn from the original return columns. -/
theorem joinRow_select {V : Type} [DecidableEq V] (lookup_df : DataFrame V)
    (key : String) (rets : List String) (mainCols : List String) (r : Row V) :
    joinRow (selectFrame lookup_df (key :: rets)) key mainCols r =
      (if lookup_df.rows.filter (fun lr =>
          (getCell mainCols r key).isSome &&
          decide (getCell lookup_df.cols lr key = getCell mainCols r key)) = [] then
        [r ++ rets.map (fun _ => (none : Option V))]
      else
        (lookup_df.rows.filter (fun lr =>
          (getCell mainCols r key).isSome &&
          decide (getCell lookup_df.cols lr key = getCell mainCols r key))).map
          (fun lr => r ++ rets.map (fun c => getCell lookup_df.cols lr c))) := by
  have hproj : (selectFrame lookup_df (key :: rets)).rows =
      lookup_df.rows.map (fun lr => (key :: rets).map (fun c => getCell lookup_df.cols lr c)) :=
    rfl
  have hcols : (selectFrame lookup_df (key :: rets)).cols = key :: rets := rfl
  unfold joinRow
  rw [hproj, hcols, List.erase_cons_head, List.filter_map,
    List.filter_congr (fun lr _ => by
      simp only [Function.comp]
      rw [getCell_map_self _ _ _ (List.mem_cons_self key rets)])]
  simp only [List.map_eq_nil_iff]
  split_ifs with h
  · rfl
  · rw [List.map_map]
    refine List.map_congr_left ?_
    intro lr _
    simp only [Function.comp]
    refine congrArg (fun x => r ++ x) ?_
    refine List.map_congr_left ?_
    intro c hc
    exact getCell_map_self _ _ _ (List.mem_cons_of_mem key hc)

theorem lookup_normalize_funeq :
    Lookup.normalize_column_name = specNormalize :=
  funext lookup_normalize_eval

/-- Claim C4: for already-normalized frames with a valid join key and valid
return columns (present in the lookup frame, distinct, and not repeating the
key — polars rejects a duplicate projection), `apply_lookup` performs a left
outer join of the main frame against the lookup frame projected to
`[key] + returnColumns`: each main row contributes one output row per
matching lookup row carrying that row's return-column values, and a main row
with no match contributes exactly one row with null in every return
column. -/
theorem C4_left_join_fanout {V : Type} [DecidableEq V]
    (main_df lookup_df : DataFrame V) (key : String) (rets : List String)
    (hmn : main_df.cols.map Lookup.normalize_column_name = main_df.cols)
    (hln : lookup_df.cols.map Lookup.normalize_column_name = lookup_df.cols)
    (hkn : Lookup.normalize_column_name key = key)
    (hrn : rets.map Lookup.normalize_column_name = rets)
    (hkm : key ∈ main_df.cols)
    (hkl : key ∈ lookup_df.cols)
    (hrc : ∀ c ∈ rets, c ∈ lookup_df.cols)
    (_hknr : key ∉ rets)
    (_hnd : rets.Nodup) :
    apply_lookup_join main_df lookup_df key rets =
      .ok ⟨main_df.cols ++ rets,
        main_df.rows.flatMap (fun r =>
          if lookup_df.rows.filter (fun lr =>
              (getCell main_df.cols r key).isSome &&
              decide (getCell lookup_df.cols lr key = getCell main_df.cols r key)) = [] then
            [r ++ rets.map (fun _ => (none : Option V))]
          else
            (lookup_df.rows.filter (fun lr =>
              (getCell main_df.cols r key).isSome &&
              decide (getCell lookup_df.cols lr key = getCell main_df.cols r key))).map
              (fun lr => r ++ rets.map (fun c => getCell lookup_df.cols lr c)))⟩ := by
  have hrm : renameFrame main_df = main_df := by
    unfold renameFrame
    rw [hmn]
  have hrl : renameFrame lookup_df = lookup_df := by
    unfold renameFrame
    rw [hln]
  unfold apply_lookup_join
  rw [hrm, hrl, hkn, hrn]
  rw [if_neg (not_not_intro hkm), if_neg (not_not_intro hkl)]
  rw [if_neg (not_not_intro (List.filter_eq_nil_iff.mpr
    (fun c hc => by simpa using hrc c hc)))]
  refine congrArg Except.ok ?_
  unfold leftJoin
  refine congrArg₂ DataFrame.mk ?_ ?_
  · show main_df.cols ++ (key :: rets).erase key = main_df.cols ++ rets
    rw [List.erase_cons_head]
  · refine congrArg main_df.rows.flatMap ?_
    funext r
    exact joinRow_select lookup_df key rets main_df.cols r

/-- Witness for C4: duplicate-key fan-out gives four output rows for id 1
and one null-extended row each for ids 2 and 3. -/
theorem C4_left_join_fanout_witness :
    apply_lookup_join c4main c4lookup ("id") (["region"]) =
      .ok ⟨["id", "region"],
        [[some "1", some "A"], [some "1", some "B"], [some "2", none], [some "3", none]]⟩ := by
  rw [C4_left_join_fanout c4main c4lookup "id" ["region"]
    (by rw [lookup_normalize_funeq]; decide)
    (by rw [lookup_normalize_funeq]; decide)
    (by rw [lookup_normalize_funeq]; decide)
    (by rw [lookup_normalize_funeq]; decide)
    (by decide) (by decide) (by decide) (by decide) (by decide)]
  rfl

end DataCleaner
